import Mathlib

/-!
Verification development for the `files-in-repos` demonstration notebook
(`src/files-in-repos.py`).  The notebook's own code consists of calls into
the Python standard library (`csv.reader`, `sys.path.append`), tabular-data
libraries (`pd.read_csv`, `spark.read.csv`, `coalesce`, `write.csv`) and the
R condition system (`tryCatch`, `withCallingHandlers`, `invokeRestart`).
The bodies of those callees are not part of the repository, so they are
embedded here as explicit Lean models, each marked in its doc comment with
what it models; the notebook's cells are then concrete instances of the
models.  CSV files are modelled at the character level as newline-separated
lines of comma-separated fields (the unquoted fragment of the format, which
is the only fragment the notebook's fixtures exercise; a final line
terminator is taken as already stripped, matching the row iterator, which
never yields a row for it).
-/

namespace FilesInRepos

/-- A CSV field, as the list of its characters. -/
abbrev CsvField := List Char

/-- Split a character list at every occurrence of the separator `c`.
The result is never empty: a text with `k` separators has `k + 1` pieces. -/
def splitCh (c : Char) : List Char → List (List Char)
  | [] => [[]]
  | x :: xs =>
    match splitCh c xs with
    | [] => [[]]
    | r :: rs => if x = c then [] :: r :: rs else (x :: r) :: rs

/-- Join pieces with the separator `c` between consecutive pieces. -/
def joinCh (c : Char) : List (List Char) → List Char
  | [] => []
  | r :: rs =>
    match rs with
    | [] => r
    | _ :: _ => r ++ c :: joinCh c rs

theorem splitCh_ne_nil (c : Char) (l : List Char) : splitCh c l ≠ [] := by
  induction l with
  | nil => simp [splitCh]
  | cons x xs ih =>
    simp only [splitCh]
    cases h : splitCh c xs with
    | nil => simp
    | cons r rs =>
      by_cases hx : x = c <;> simp [hx]

theorem joinCh_splitCh (c : Char) (l : List Char) :
    joinCh c (splitCh c l) = l := by
  induction l with
  | nil => simp [splitCh, joinCh]
  | cons x xs ih =>
    simp only [splitCh]
    cases h : splitCh c xs with
    | nil => exact absurd h (splitCh_ne_nil c xs)
    | cons r rs =>
      rw [h] at ih
      by_cases hx : x = c
      · subst hx
        simp only [if_pos rfl, joinCh]
        simpa using ih
      · simp only [if_neg hx]
        cases rs with
        | nil =>
          simp only [joinCh] at ih ⊢
          rw [ih]
        | cons r2 rs2 =>
          simp only [joinCh] at ih ⊢
          rw [List.cons_append, ih]

theorem splitCh_of_not_mem (c : Char) (l : List Char) (h : c ∉ l) :
    splitCh c l = [l] := by
  induction l with
  | nil => simp [splitCh]
  | cons x xs ih =>
    simp only [List.mem_cons, not_or] at h
    simp only [splitCh, ih h.2]
    rw [if_neg (by exact fun hx => h.1 hx.symm)]

theorem splitCh_cons_eq (c x : Char) (xs r : List Char) (rs : List (List Char))
    (hs : splitCh c xs = r :: rs) :
    splitCh c (x :: xs) = if x = c then [] :: r :: rs else (x :: r) :: rs := by
  simp only [splitCh, hs]

theorem joinCh_cons_cons (c : Char) (r s : List Char) (rs : List (List Char)) :
    joinCh c (r :: s :: rs) = r ++ c :: joinCh c (s :: rs) := rfl

theorem splitCh_append_sep (c : Char) (l r : List Char) (h : c ∉ l) :
    splitCh c (l ++ c :: r) = l :: splitCh c r := by
  induction l with
  | nil =>
    obtain ⟨q, qs, hr⟩ : ∃ q qs, splitCh c r = q :: qs := by
      cases hr : splitCh c r with
      | nil => exact absurd hr (splitCh_ne_nil c r)
      | cons q qs => exact ⟨q, qs, rfl⟩
    rw [List.nil_append, splitCh_cons_eq c c r q qs hr, if_pos rfl, hr]
  | cons x xs ih =>
    simp only [List.mem_cons, not_or] at h
    rw [List.cons_append, splitCh_cons_eq c x (xs ++ c :: r) _ _ (ih h.2)]
    rw [if_neg (fun hx => h.1 hx.symm)]

theorem splitCh_joinCh (c : Char) (xs : List (List Char))
    (hne : xs ≠ []) (hok : ∀ x ∈ xs, c ∉ x) :
    splitCh c (joinCh c xs) = xs := by
  induction xs with
  | nil => exact absurd rfl hne
  | cons a tl ih =>
    cases tl with
    | nil =>
      simp only [joinCh]
      exact splitCh_of_not_mem c a (hok a (by simp))
    | cons b tl2 =>
      rw [joinCh_cons_cons]
      rw [splitCh_append_sep c a _ (hok a (by simp))]
      rw [ih (by simp) (fun x hx => hok x (List.mem_cons_of_mem a hx))]

theorem not_mem_joinCh (c a : Char) (xs : List (List Char))
    (hc : a ≠ c) (h : ∀ x ∈ xs, a ∉ x) : a ∉ joinCh c xs := by
  induction xs with
  | nil => simp [joinCh]
  | cons r rs ih =>
    cases rs with
    | nil =>
      simp only [joinCh]
      exact h r (by simp)
    | cons r2 rs2 =>
      simp only [joinCh, List.mem_append, List.mem_cons, not_or]
      refine ⟨h r (by simp), hc, ?_⟩
      exact ih (fun x hx => h x (List.mem_cons_of_mem r hx))

theorem map_eq_self {α : Type} (f : α → α) (l : List α) (h : ∀ a ∈ l, f a = a) :
    l.map f = l := by
  induction l with
  | nil => rfl
  | cons a tl ih =>
    rw [List.map_cons, h a (by simp), ih (fun b hb => h b (List.mem_cons_of_mem a hb))]

/-! ### The row iterator and the bulk loader

`src/files-in-repos.py` lines 97-101 iterate over an opened file with
`csv.reader`; lines 117-120 and 142-145 bulk-load the same kind of file with
`pd.read_csv` / `spark.read.csv(..., header=True)`. -/

/-- Model of Python's `csv.reader` looping over an opened text file
(src lines 97-101): the file content is split into lines at each newline
and every line is split into fields at each comma. -/
def csvReader (s : List Char) : List (List CsvField) :=
  (splitCh '\n' s).map (splitCh ',')

/-- Serialise rows back to file text: fields joined by commas, lines joined
by newlines.  This is the content form the readers consume. -/
def csvUnparse (rows : List (List CsvField)) : List Char :=
  joinCh '\n' (rows.map (joinCh ','))

/-- Convenience: build a row of fields from string literals. -/
def strRow (l : List String) : List CsvField := l.map String.data

/-- The concrete `data.csv` fixture of the specification: header `a,b`,
data rows `1,2` and `3,4`. -/
def dataCsv : List Char := "a,b\n1,2\n3,4".data

/-- The fixture as its list of rows. -/
def fixtureRows : List (List CsvField) :=
  [strRow ["a", "b"], strRow ["1", "2"], strRow ["3", "4"]]

/-- Parsing is a left inverse of serialising, for a nonempty list of
nonempty rows whose fields contain no separator characters. -/
theorem csvReader_csvUnparse (rows : List (List CsvField))
    (hne : rows ≠ []) (hrne : ∀ r ∈ rows, r ≠ [])
    (hok : ∀ r ∈ rows, ∀ f ∈ r, ',' ∉ f ∧ '\n' ∉ f) :
    csvReader (csvUnparse rows) = rows := by
  unfold csvReader csvUnparse
  rw [splitCh_joinCh '\n' (rows.map (joinCh ','))
      (by simpa using hne)
      (by
        intro x hx
        obtain ⟨r, hr, rfl⟩ := List.mem_map.mp hx
        exact not_mem_joinCh ',' '\n' r (by decide)
          (fun f hf => (hok r hr f hf).2))]
  rw [List.map_map]
  exact map_eq_self _ rows (fun r hr =>
    splitCh_joinCh ',' r (hrne r hr) (fun f hf => (hok r hr f hf).1))

/-- **C1.** Reading a fixture file of `R` rows and `C` columns through the row
iterator yields exactly `R` sequences of length `C`, in file order; in
particular on `data.csv` (header `a,b`, data rows `1,2` and `3,4`) the
iterator yields `["a","b"]`, then `["1","2"]`, then `["3","4"]` — so
`["1","2"]` and then `["3","4"]`. -/
theorem csvReader_yields_all_rows (rows : List (List CsvField)) (C : Nat)
    (hne : rows ≠ []) (hpos : 0 < C)
    (hC : ∀ r ∈ rows, r.length = C)
    (hok : ∀ r ∈ rows, ∀ f ∈ r, ',' ∉ f ∧ '\n' ∉ f) :
    csvReader (csvUnparse rows) = rows
    ∧ (csvReader (csvUnparse rows)).length = rows.length
    ∧ (∀ r ∈ csvReader (csvUnparse rows), r.length = C)
    ∧ csvReader dataCsv = fixtureRows := by
  have hmain : csvReader (csvUnparse rows) = rows :=
    csvReader_csvUnparse rows hne
      (fun r hr => by
        intro hnil
        have := hC r hr
        rw [hnil] at this
        simp at this
        omega)
      hok
  refine ⟨hmain, by rw [hmain], ?_, by decide⟩
  intro r hr
  rw [hmain] at hr
  exact hC r hr

/-- Witness for C1 at the `data.csv` fixture. -/
theorem csvReader_yields_all_rows_witness :
    0 < 2 ∧ csvReader (csvUnparse fixtureRows) = fixtureRows :=
  ⟨by decide,
   (csvReader_yields_all_rows fixtureRows 2 (by decide) (by decide)
     (by decide) (by decide)).1⟩

/-- In-memory tabular structure produced by the bulk loaders: header-declared
column names and the data rows.  `spark.read.csv(..., header=True)` (src line
144) keeps every value as text, which is what the fields here are. -/
structure DataFrame where
  columns : List CsvField
  rows : List (List CsvField)
deriving Repr, DecidableEq

/-- Model of the bulk loaders `pd.read_csv` (src line 119) and
`spark.read.csv(..., header=True)` (src line 144): the first line of the file
becomes the column names, the remaining lines become the data rows. -/
def read_csv (s : List Char) : DataFrame :=
  match csvReader s with
  | [] => ⟨[], []⟩
  | h :: t => ⟨h, t⟩

theorem read_csv_unparse (header : List CsvField) (dataRows : List (List CsvField))
    (hhne : header ≠ []) (hrne : ∀ r ∈ dataRows, r ≠ [])
    (hok : ∀ r ∈ header :: dataRows, ∀ f ∈ r, ',' ∉ f ∧ '\n' ∉ f) :
    read_csv (csvUnparse (header :: dataRows)) = ⟨header, dataRows⟩ := by
  have h := csvReader_csvUnparse (header :: dataRows) (by simp)
    (by
      intro r hr
      rcases List.mem_cons.mp hr with h1 | h2
      · exact h1 ▸ hhne
      · exact hrne r h2)
    hok
  simp only [read_csv, h]

/-- **C4.** Bulk-loading a fixture of `R` data rows and `C` columns with a
header row yields a tabular structure with exactly `R` rows whose column
names are the header-declared names, in file order; on `data.csv` this is a
2-row, 2-column structure with columns `a`, `b` and values `1,2,3,4` in
row-major order (kept as text, as `header=True` without schema inference
does). -/
theorem read_csv_bulk_load (header : List CsvField) (dataRows : List (List CsvField))
    (C : Nat) (hpos : 0 < C) (hh : header.length = C)
    (hC : ∀ r ∈ dataRows, r.length = C)
    (hok : ∀ r ∈ header :: dataRows, ∀ f ∈ r, ',' ∉ f ∧ '\n' ∉ f) :
    (read_csv (csvUnparse (header :: dataRows))).columns = header
    ∧ (read_csv (csvUnparse (header :: dataRows))).rows = dataRows
    ∧ (read_csv (csvUnparse (header :: dataRows))).rows.length = dataRows.length
    ∧ read_csv dataCsv = ⟨strRow ["a", "b"], [strRow ["1", "2"], strRow ["3", "4"]]⟩
    ∧ (read_csv dataCsv).rows.flatten = strRow ["1", "2", "3", "4"] := by
  have h := read_csv_unparse header dataRows
    (by
      intro hnil
      rw [hnil] at hh
      simp at hh
      omega)
    (by
      intro r hr hnil
      have := hC r hr
      rw [hnil] at this
      simp at this
      omega)
    hok
  refine ⟨by rw [h], by rw [h], by rw [h], by decide, by decide⟩

/-- Witness for C4 at the `data.csv` fixture. -/
theorem read_csv_bulk_load_witness :
    0 < 2 ∧
    (read_csv (csvUnparse (strRow ["a", "b"] :: [strRow ["1", "2"], strRow ["3", "4"]]))).columns
      = strRow ["a", "b"] :=
  ⟨by decide,
   (read_csv_bulk_load (strRow ["a", "b"]) [strRow ["1", "2"], strRow ["3", "4"]] 2
     (by decide) (by decide) (by decide) (by decide)).1⟩

/-- Model of Spark's `DataFrameWriter.csv` as invoked at src line 163
(`df.coalesce(1).write.csv("dbfs:/FileStore/df/Sample.csv")`): the writer's
`header` option is not set and defaults to off, so only the data rows are
serialised; the column names are not written. -/
def write_csv (df : DataFrame) : List Char :=
  joinCh '\n' (df.rows.map (joinCh ','))

/-- **C7, counterexample.** The read-then-write round trip is not lossless as
claimed: on the `data.csv` fixture the written text is `1,2\n3,4` — the data
rows — and differs from the input file, whose header line `a,b` is lost
because `write.csv` does not write a header by default. -/
theorem write_csv_roundtrip_counterexample :
    write_csv (read_csv dataCsv) = "1,2\n3,4".data
    ∧ write_csv (read_csv dataCsv) ≠ dataCsv := by
  refine ⟨by decide, by decide⟩

/-- **C7, amended.** Reading a delimited file with a header row and writing it
back preserves every data row and every value, in order — the written text is
exactly the serialisation of the data rows — but the header row is not
written (the writer's header option defaults to off), so the header is the
one part of the file that does not round-trip. -/
theorem write_csv_roundtrip_data_only (header : List CsvField)
    (dataRows : List (List CsvField)) (C : Nat)
    (hpos : 0 < C) (hh : header.length = C)
    (hC : ∀ r ∈ dataRows, r.length = C)
    (hok : ∀ r ∈ header :: dataRows, ∀ f ∈ r, ',' ∉ f ∧ '\n' ∉ f) :
    write_csv (read_csv (csvUnparse (header :: dataRows))) = csvUnparse dataRows := by
  have h := read_csv_unparse header dataRows
    (by
      intro hnil
      rw [hnil] at hh
      simp at hh
      omega)
    (by
      intro r hr hnil
      have := hC r hr
      rw [hnil] at this
      simp at this
      omega)
    hok
  rw [h]
  rfl

/-- Witness for the amended C7 at the `data.csv` fixture. -/
theorem write_csv_roundtrip_data_only_witness :
    0 < 2 ∧
    write_csv (read_csv (csvUnparse (strRow ["a", "b"] :: [strRow ["1", "2"], strRow ["3", "4"]])))
      = csvUnparse [strRow ["1", "2"], strRow ["3", "4"]] :=
  ⟨by decide,
   write_csv_roundtrip_data_only (strRow ["a", "b"]) [strRow ["1", "2"], strRow ["3", "4"]] 2
     (by decide) (by decide) (by decide) (by decide)⟩

/-! ### Scheme-prefixed absolute paths (src lines 132 and 144) -/

/-- Path construction from src lines 132 and 144: the f-string
`f"file:{os.getcwd()}/data/winequality-red.csv"` — the literal scheme token,
then the working directory, then the literal remainder. -/
def notebookCsvPath (cwd : String) : String :=
  "file:" ++ cwd ++ "/data/winequality-red.csv"

/-- The spec's description of the same construction (refinement side): the
fixed scheme token, the working directory, a separator, and the relative
path, concatenated in that order. -/
def specSchemeForm (w p : String) : String :=
  "file:" ++ w ++ "/" ++ p

/-- **C5.** For every working directory `w`, the scheme-prefixed absolute
path the notebook builds equals the spec's concatenation
`"file:" ++ w ++ "/" ++ p` at the notebook's relative path
`data/winequality-red.csv`. -/
theorem scheme_path_concatenation (w : String) :
    notebookCsvPath w = specSchemeForm w "data/winequality-red.csv" := by
  unfold notebookCsvPath specSchemeForm
  have h : "/" ++ "data/winequality-red.csv" = "/data/winequality-red.csv" := rfl
  rw [String.append_assoc ("file:" ++ w) "/" "data/winequality-red.csv", h,
    String.append_assoc]

/-! ### The module search path (src lines 47-54)

`sys.path.append(os.path.abspath('/Workspace/Repos/<username>/supplemental_files'))`
followed by `import lib`.  The resolver consulting the path is modelled as
first-match lookup over an abstract filesystem mapping each directory to the
module names physically present in it. -/

/-- Whether a bare module name resolves against the search path: some entry
of the path is a directory that physically contains the module. -/
def importable (fs : String → List String) (path : List String) (m : String) : Bool :=
  path.any (fun d => (fs d).contains m)

/-- The directory an import resolves to: the first path entry containing the
module (first match wins). -/
def resolve (fs : String → List String) (path : List String) (m : String) : Option String :=
  path.find? (fun d => (fs d).contains m)

/-- Model of `sys.path.append` (src line 51): the new directory goes at the
end of the search path. -/
def sysPathAppend (path : List String) (d : String) : List String := path ++ [d]

/-- The abstract filesystem of the notebook's own scenario: the
`supplemental_files` repo contains the module `lib`; nothing else does. -/
def fsDemo : String → List String :=
  fun d => if d = "supplemental_files" then ["lib"] else []

theorem importable_eq_false (fs : String → List String) (path : List String)
    (m : String) (hbefore : ∀ d ∈ path, (fs d).contains m = false) :
    importable fs path m = false := by
  revert hbefore
  induction path with
  | nil => intro _; rfl
  | cons d tl ih =>
    intro hbefore
    unfold importable at ih ⊢
    rw [List.any_cons, hbefore d (by simp), Bool.false_or]
    exact ih (fun x hx => hbefore x (List.mem_cons_of_mem d hx))

theorem resolve_append_not_found (fs : String → List String) (path : List String)
    (m D : String) (hbefore : ∀ d ∈ path, (fs d).contains m = false) :
    resolve fs (path ++ [D]) m = resolve fs [D] m := by
  revert hbefore
  induction path with
  | nil => intro _; rfl
  | cons d tl ih =>
    intro hbefore
    unfold resolve at ih ⊢
    rw [List.cons_append,
      List.find?_cons_of_neg _ (by simpa using hbefore d (by simp))]
    exact ih (fun x hx => hbefore x (List.mem_cons_of_mem d hx))

/-- **C2.** A module physically present only in `D` is not importable before
`D` is appended to the search path, is importable immediately after the
append, resolves to `D` itself, and resolution order is first-match: the
working-directory entry wins, then earlier entries in append order. -/
theorem sys_path_append_importable (fs : String → List String) (path : List String)
    (D m wd : String) (ds : List String)
    (hbefore : ∀ d ∈ path, (fs d).contains m = false)
    (hin : (fs D).contains m = true) :
    importable fs path m = false
    ∧ importable fs (sysPathAppend path D) m = true
    ∧ resolve fs (sysPathAppend path D) m = some D
    ∧ resolve fs (wd :: ds) m
        = (if (fs wd).contains m then some wd else resolve fs ds m) := by
  have hin2 : m ∈ fs D := by simpa using hin
  refine ⟨importable_eq_false fs path m hbefore, ?_, ?_, ?_⟩
  · unfold importable sysPathAppend
    rw [List.any_append]
    simp [hin2]
  · unfold resolve sysPathAppend
    have h := resolve_append_not_found fs path m D hbefore
    unfold resolve at h
    rw [h, List.find?_cons_of_pos _ (by simpa using hin)]
  · unfold resolve
    by_cases hwd : (fs wd).contains m
    · rw [List.find?_cons_of_pos _ (by simpa using hwd), if_pos hwd]
    · rw [List.find?_cons_of_neg _ (by simpa using hwd), if_neg hwd]

/-- Witness for C2 at the notebook's own scenario: path holds only the
working repo, `lib` lives in `supplemental_files`. -/
theorem sys_path_append_importable_witness :
    (fsDemo "supplemental_files").contains "lib" = true
    ∧ importable fsDemo ["files_in_repos"] "lib" = false :=
  ⟨by decide,
   (sys_path_append_importable fsDemo ["files_in_repos"] "supplemental_files" "lib"
     "files_in_repos" [] (by decide) (by decide)).1⟩

/-! ### The single-file write option (src line 163)

`df.coalesce(1).write.csv("dbfs:/FileStore/df/Sample.csv")`.  Spark's writer
and `coalesce` are not part of the repository; they are modelled from their
documented behaviour, which the notebook's own markdown (src line 155)
restates: the writer emits one part-file per partition, and `.coalesce(1)`
forces all the data into one partition. -/

/-- A distributed tabular structure: its rows grouped into partitions. -/
structure SparkDF where
  parts : List (List (List CsvField))
deriving Repr, DecidableEq

/-- Model of `DataFrame.coalesce(n)` (src line 163): reduce the number of
partitions to at most `n`, moving rows but never dropping or reordering the
overall row sequence. -/
def coalesce (n : Nat) (df : SparkDF) : SparkDF :=
  if df.parts.length ≤ n then df
  else ⟨df.parts.take (n - 1) ++ [(df.parts.drop (n - 1)).flatten]⟩

/-- Model of the distributed `write.csv` (src line 163): one output artifact
per partition, so the artifact count is the partition count. -/
def numOutputFiles (df : SparkDF) : Nat := df.parts.length

/-- The row sequence of a distributed structure, in partition order. -/
def dfRows (df : SparkDF) : List (List CsvField) := df.parts.flatten

/-- **C6.** Writing with the single-file option (`coalesce(1)`) produces
exactly one output artifact, with all rows preserved; without the option the
artifact count follows the partitioning and can exceed one. -/
theorem coalesce_one_single_file (df : SparkDF) (h : df.parts ≠ []) :
    numOutputFiles (coalesce 1 df) = 1
    ∧ dfRows (coalesce 1 df) = dfRows df
    ∧ ∃ d : SparkDF, 1 < numOutputFiles d := by
  refine ⟨?_, ?_, ⟨⟨[[], []]⟩, by simp [numOutputFiles]⟩⟩
  · unfold coalesce numOutputFiles
    by_cases hc : df.parts.length ≤ 1
    · rw [if_pos hc]
      have : df.parts.length ≠ 0 := fun h0 => h (List.length_eq_zero.mp h0)
      omega
    · rw [if_neg hc]
      simp
  · unfold coalesce dfRows
    by_cases hc : df.parts.length ≤ 1
    · rw [if_pos hc]
    · rw [if_neg hc]
      simp

/-- Witness for C6 at a two-partition structure holding the fixture rows. -/
theorem coalesce_one_single_file_witness :
    (SparkDF.mk [[strRow ["1", "2"]], [strRow ["3", "4"]]]).parts ≠ []
    ∧ numOutputFiles (coalesce 1 (SparkDF.mk [[strRow ["1", "2"]], [strRow ["3", "4"]]])) = 1 :=
  ⟨by decide,
   (coalesce_one_single_file (SparkDF.mk [[strRow ["1", "2"]], [strRow ["3", "4"]]])
     (by decide)).1⟩

/-! ### The R condition system demos (src lines 197-263)

The notebook's R cells signal conditions with `stop`/`log` (errors),
`warning` and `message`, and intercept them with `tryCatch`,
`withCallingHandlers` and `invokeRestart("muffleWarning")`.  The condition
system itself is R's; it is modelled here by small-step runners over a body
of primitive actions, returning the emitted trace and whether the step ran
to completion. -/

/-- The condition kinds the notebook's demos signal. -/
inductive CondKind
  | error
  | warning
  | message
deriving Repr, DecidableEq

/-- A primitive action of an R demo cell body: printing, or signalling a
condition. -/
inductive Action
  | print (s : String)
  | signal (k : CondKind) (msg : String)
deriving Repr, DecidableEq

/-- Default top-level condition processing, modelled from R (cf. the
"Unhandled errors" cell, src lines 208-216): an error aborts the step and
the rest of the body is skipped; warnings and messages are reported and
execution continues. -/
def runTop : List Action → List String × Bool
  | [] => ([], true)
  | Action.print s :: rest =>
    let r := runTop rest
    (s :: r.1, r.2)
  | Action.signal CondKind.error m :: _ => (["Error: " ++ m], false)
  | Action.signal CondKind.warning m :: rest =>
    let r := runTop rest
    (("Warning message: " ++ m) :: r.1, r.2)
  | Action.signal CondKind.message m :: rest =>
    let r := runTop rest
    (m :: r.1, r.2)

/-- Model of R's `tryCatch(body, k = handler)` (src lines 221-241): the body
runs until its first condition of the handled kind; that condition unwinds
the rest of the body, the exiting handler runs (emitting `hout`), and the
step continues normally.  A non-matching error propagates and halts the
step; non-matching warnings and messages get default processing and the
body continues. -/
def tryCatch (hk : CondKind) (hout : String → List String) :
    List Action → List String × Bool
  | [] => ([], true)
  | Action.print s :: rest =>
    let r := tryCatch hk hout rest
    (s :: r.1, r.2)
  | Action.signal k m :: rest =>
    if k = hk then (hout m, true)
    else
      match k with
      | CondKind.error => (["Error: " ++ m], false)
      | CondKind.warning =>
        let r := tryCatch hk hout rest
        (("Warning message: " ++ m) :: r.1, r.2)
      | CondKind.message =>
        let r := tryCatch hk hout rest
        (m :: r.1, r.2)

/-- The result of evaluating a protected expression: a value, or a signalled
condition. -/
inductive Outcome (α : Type)
  | ok (a : α)
  | signaled (k : CondKind) (msg : String)
deriving Repr, DecidableEq

/-- Value semantics of `tryCatch`: when the body signals the handled kind,
the handler's return value becomes the value of the whole `tryCatch` call. -/
def tryCatchValue {α : Type} (body : Outcome α) (hk : CondKind)
    (handler : String → α) : Outcome α :=
  match body with
  | Outcome.ok a => Outcome.ok a
  | Outcome.signaled k m =>
    if k = hk then Outcome.ok (handler m) else Outcome.signaled k m

/-- A calling handler for warnings: what it emits, and whether it invokes
`invokeRestart("muffleWarning")`. -/
structure WHandler where
  hout : String → List String
  muffle : Bool

/-- Model of R's `withCallingHandlers(body, warning = handler)` (src lines
245-263): at each warning the handler runs in place and execution then
resumes at the point of interruption; when the handler invoked
`invokeRestart("muffleWarning")` the default warning report is suppressed,
otherwise it is still emitted.  Errors halt the step as at top level. -/
def withCallingHandlers (h : WHandler) : List Action → List String × Bool
  | [] => ([], true)
  | Action.print s :: rest =>
    let r := withCallingHandlers h rest
    (s :: r.1, r.2)
  | Action.signal CondKind.error m :: _ => (["Error: " ++ m], false)
  | Action.signal CondKind.warning m :: rest =>
    let r := withCallingHandlers h rest
    (h.hout m ++ (if h.muffle then [] else ["Warning message: " ++ m]) ++ r.1, r.2)
  | Action.signal CondKind.message m :: rest =>
    let r := withCallingHandlers h rest
    (m :: r.1, r.2)

/-- Body of `test` (src lines 211-214): `log("not a number")` errors, then a
print that, as the cell itself says, never executes. -/
def testBody : List Action :=
  [Action.signal CondKind.error "non-numeric argument to mathematical function",
   Action.print "R does stop due to an error and never executes this line"]

/-- Body of the tryCatch-with-a-warning demo (src line 231): `log(-1)`
warns, then the result would be printed. -/
def warningDemoBody : List Action :=
  [Action.signal CondKind.warning "NaNs produced", Action.print "[1] NaN"]

/-- Body of the tryCatch-with-a-parameter demo (src line 239): a message,
then a print of Done. -/
def messageDemoBody : List Action :=
  [Action.signal CondKind.message "please handle me", Action.print "[1] \"Done\""]

/-- Body of `f` in the withCallingHandlers demo (src lines 247-250). -/
def helloWorldBody : List Action :=
  [Action.signal CondKind.warning "deprecated function called",
   Action.print "[1] \"Hello world\""]

/-- Body of `f` in the withCallingHandlers-and-restart demo (src lines
257-260). -/
def helloOldWorldBody : List Action :=
  [Action.signal CondKind.warning "deprecated function called",
   Action.print "[1] \"Hello old world\""]

/-- The handler of the withCallingHandlers demo (src line 251): prints, does
not invoke a restart. -/
def warnDemoHandler : WHandler :=
  ⟨fun _ => ["[1] \"Hey, a warning\""], false⟩

/-- The handler of the restart demo (src lines 261-262): prints, then
invokes `invokeRestart("muffleWarning")`. -/
def muffleDemoHandler : WHandler :=
  ⟨fun _ => ["[1] \"Hey, a warning\""], true⟩

/-- **C3, counterexample.** An unintercepted condition does not always halt
the step: a body that signals a warning with no interception still runs to
completion and executes the print after the signal — only errors halt. -/
theorem uncaught_warning_does_not_halt :
    (runTop [Action.signal CondKind.warning "w", Action.print "done"]).2 = true
    ∧ "done" ∈ (runTop [Action.signal CondKind.warning "w", Action.print "done"]).1 := by
  refine ⟨rfl, by decide⟩

/-- **C3, amended.** Intercepting a condition kind — any kind, the error
interception of the `tryCatch` cell at src lines 221-225 included — prevents
the step from halting: the handler fires and the step completes.  An
uncaught error propagates to the top level and halts the step, skipping the
rest of the body — also from inside a `tryCatch` for a different kind — as
the `test` cell demonstrates.  An uncaught warning or message is reported
and execution of the rest of the body continues. -/
theorem trycatch_interception (k : CondKind) (hout : String → List String)
    (m : String) (post : List Action) :
    (tryCatch k hout (Action.signal k m :: post)).2 = true
    ∧ (tryCatch k hout (Action.signal k m :: post)).1 = hout m
    ∧ (runTop (Action.signal CondKind.error m :: post)).2 = false
    ∧ (runTop (Action.signal CondKind.error m :: post)).1 = ["Error: " ++ m]
    ∧ (runTop (Action.signal CondKind.warning m :: post)).2 = (runTop post).2
    ∧ (runTop (Action.signal CondKind.warning m :: post)).1
        = ("Warning message: " ++ m) :: (runTop post).1
    ∧ (runTop (Action.signal CondKind.message m :: post)).2 = (runTop post).2
    ∧ (runTop (Action.signal CondKind.message m :: post)).1 = m :: (runTop post).1
    ∧ (k ≠ CondKind.error →
        (tryCatch k hout (Action.signal CondKind.error m :: post)).2 = false)
    ∧ runTop testBody
        = (["Error: non-numeric argument to mathematical function"], false) := by
  refine ⟨by simp [tryCatch], by simp [tryCatch], rfl, rfl, rfl, rfl, rfl, rfl,
    ?_, by decide⟩
  intro hk
  simp only [tryCatch, if_neg (fun hh : CondKind.error = k => hk hh.symm)]

/-- Witness for the amended C3: intercepting the error kind at a concrete
error-signalling body — the notebook's own `tryCatch(..., error = ...)`
case — prevents the halt, while the same error under a warning-only
interception halts the step. -/
theorem trycatch_interception_witness :
    (tryCatch CondKind.error (fun _ => ["h"])
        [Action.signal CondKind.error "w"]).2 = true
    ∧ (tryCatch CondKind.warning (fun _ => ["h"])
        [Action.signal CondKind.error "w"]).2 = false :=
  ⟨(trycatch_interception CondKind.error (fun _ => ["h"]) "w" []).1,
   (trycatch_interception CondKind.warning (fun _ => ["h"]) "w"
     []).2.2.2.2.2.2.2.2.1 (by decide)⟩

/-- **C10.** When a `tryCatch` handler fires, the rest of the protected
expression is skipped and the handler's return value becomes the result of
the call: in the warning demo the print of the result never executes, and in
the message demo the print of Done never executes, although both conditions
are benign. -/
theorem trycatch_unwinds {α : Type} (k : CondKind) (m : String)
    (handler : String → α) :
    tryCatchValue (Outcome.signaled k m) k handler = Outcome.ok (handler m)
    ∧ tryCatch CondKind.warning (fun _ => ["[1] \"Hey, a warning\""]) warningDemoBody
        = (["[1] \"Hey, a warning\""], true)
    ∧ "[1] NaN" ∉ (tryCatch CondKind.warning (fun _ => ["[1] \"Hey, a warning\""])
        warningDemoBody).1
    ∧ tryCatch CondKind.message (fun _ => []) messageDemoBody = ([], true)
    ∧ "[1] \"Done\"" ∉ (tryCatch CondKind.message (fun _ => []) messageDemoBody).1 := by
  refine ⟨by simp [tryCatchValue], by decide, by decide, by decide, by decide⟩

/-- **C8, counterexample.** Resumption under `withCallingHandlers` is not
conditional on invoking a restart: in the demo without
`invokeRestart("muffleWarning")` (src lines 245-251) the handler invokes no
restart, yet execution resumes after the warning, the final print of the
body runs, and the step completes — refuting that resumption happens exactly
when a restart is invoked. -/
theorem wch_resumes_without_restart_counterexample :
    warnDemoHandler.muffle = false
    ∧ (withCallingHandlers warnDemoHandler helloWorldBody).2 = true
    ∧ "[1] \"Hello world\"" ∈ (withCallingHandlers warnDemoHandler helloWorldBody).1 := by
  refine ⟨rfl, rfl, by decide⟩

/-- **C8, amended.** Under `withCallingHandlers` execution always resumes at
the point of interruption after the warning handler returns, whether or not
a restart is invoked; `invokeRestart("muffleWarning")` changes only the
trace, by suppressing the default warning report, as in the restart demo
(src lines 255-263). -/
theorem wch_restart_only_muffles (tr : String → List String) (b : Bool)
    (m : String) (rest : List Action) :
    (withCallingHandlers ⟨tr, b⟩ (Action.signal CondKind.warning m :: rest)).2
      = (withCallingHandlers ⟨tr, b⟩ rest).2
    ∧ (withCallingHandlers ⟨tr, true⟩ (Action.signal CondKind.warning m :: rest)).1
      = tr m ++ (withCallingHandlers ⟨tr, true⟩ rest).1
    ∧ (withCallingHandlers ⟨tr, false⟩ (Action.signal CondKind.warning m :: rest)).1
      = tr m ++ ("Warning message: " ++ m)
          :: (withCallingHandlers ⟨tr, false⟩ rest).1
    ∧ withCallingHandlers muffleDemoHandler helloOldWorldBody
        = (["[1] \"Hey, a warning\"", "[1] \"Hello old world\""], true) := by
  refine ⟨rfl, by simp [withCallingHandlers], by simp [withCallingHandlers], by decide⟩

/-- **C9.** Under `withCallingHandlers`, after a warning handler returns,
execution of the signalling function resumes at the point of interruption
even when no restart is invoked: the remaining body runs and the step
completes; `invokeRestart("muffleWarning")` only suppresses the default
warning report and is not required for resumption. -/
theorem wch_resumes_after_handler (tr : String → List String) (m : String)
    (rest : List Action) :
    (withCallingHandlers ⟨tr, false⟩ (Action.signal CondKind.warning m :: rest)).2
      = (withCallingHandlers ⟨tr, false⟩ rest).2
    ∧ (withCallingHandlers ⟨tr, false⟩ (Action.signal CondKind.warning m :: rest)).1
      = tr m ++ ("Warning message: " ++ m)
          :: (withCallingHandlers ⟨tr, false⟩ rest).1
    ∧ (withCallingHandlers warnDemoHandler helloWorldBody).2 = true
    ∧ withCallingHandlers warnDemoHandler helloWorldBody
        = (["[1] \"Hey, a warning\"",
            "Warning message: deprecated function called",
            "[1] \"Hello world\""], true) := by
  refine ⟨rfl, by simp [withCallingHandlers], rfl, by decide⟩

end FilesInRepos
